import Mathlib

/-
  Verification development for the Redactor pipeline.

  Shallow embedding of the censor-segment engine (src/audio_processor.py,
  src/utils.py) and the workflow controller (src/workflow.py).

  Modelling conventions:
  * Python float seconds are modelled as rationals (ℚ).
  * A pydub AudioSegment is modelled as a list of integer samples at a
    resolution of one sample per millisecond, so `len(audio)` (pydub returns
    milliseconds) is the list length.
  * The external tone synthesizer (pydub.generators.Sine) is an opaque
    collaborator: it is passed in as a function `tone : ℕ → ℕ → ℤ` giving the
    sample of a given frequency at a given index.  Whether synthesis raises an
    exception is modelled by the boolean `toneFails`.
-/

namespace Redactor

/-- Model of utils.seconds_to_milliseconds: `max(0, int(float(seconds) * 1000))`.
For non-negative inputs Python's `int` truncation agrees with the floor, and for
negative inputs both are clamped to 0, so the function is `(⌊seconds * 1000⌋).toNat`
on every input.  It is written here with integer numerator/denominator
arithmetic so that it evaluates by kernel reduction; the theorem
`seconds_to_milliseconds_eq_floor` below proves it equal to the floor formula. -/
def seconds_to_milliseconds (seconds : ℚ) : ℕ :=
  ((seconds.num * 1000).fdiv (seconds.den : ℤ)).toNat

/-- Model of the clamping block of the censor loop (audio_processor.py lines
128-136), for a single segment, given the original audio duration `D` in
milliseconds:
  start_ms = max(0, start_ms); end_ms = max(start_ms, end_ms);
  end_ms = min(D, end_ms); start_ms = min(D, start_ms).
The `max 0` on start is already guaranteed by `seconds_to_milliseconds`. -/
def clampSegment (D : ℕ) (seg : ℚ × ℚ) : ℕ × ℕ :=
  let start_ms := seconds_to_milliseconds seg.1
  let end_ms := seconds_to_milliseconds seg.2
  let end_ms := max start_ms end_ms
  let end_ms := min D end_ms
  let start_ms := min D start_ms
  (start_ms, end_ms)

/-- Stable insertion of a segment into a list sorted by start time: the new
element goes after every element whose start is ≤ its own. -/
def insertByStart (x : ℚ × ℚ) : List (ℚ × ℚ) → List (ℚ × ℚ)
  | [] => [x]
  | y :: ys => if x.1 < y.1 then x :: y :: ys else y :: insertByStart x ys

/-- Model of `segments_to_censor.sort(key=lambda x: x[0])` (audio_processor.py
line 124).  Python's list.sort is a stable sort keyed on the start time;
left-to-right stable insertion computes the same list. -/
def sortByStart (l : List (ℚ × ℚ)) : List (ℚ × ℚ) :=
  l.foldl (fun acc x => insertByStart x acc) []

/-- The censoring plan actually applied by censor_audio: segments sorted by
start time, each converted to milliseconds and clamped, zero-duration segments
dropped (audio_processor.py lines 124-142).  `D` is the source audio duration
in milliseconds. -/
def censorPlan (segments : List (ℚ × ℚ)) (D : ℕ) : List (ℕ × ℕ) :=
  ((sortByStart segments).map (clampSegment D)).filter (fun p => decide (p.1 < p.2))

/-- Mixing of two 16-bit samples with saturation, the effect of pydub's
AudioSegment.overlay on one sample position. -/
def mixSample (a b : ℤ) : ℤ :=
  max (-32768) (min 32767 (a + b))

/-- Model of `base.overlay(seg, position=pos)`: the result has the length of
`base`; samples in `[pos, pos + len seg)` are mixed with `seg`, the overlaid
part being truncated at the end of `base`; all other samples are unchanged. -/
def overlay (base seg : List ℤ) (pos : ℕ) : List ℤ :=
  base.take pos ++ List.zipWith mixSample (base.drop pos) seg ++ base.drop (pos + seg.length)

/-- Model of `beep.fade_in(fd).fade_out(fd)`: a length-preserving amplitude
ramp over the first and last `fd` samples. -/
def applyFade (fd : ℕ) (l : List ℤ) : List ℤ :=
  l.mapIdx (fun i s =>
    let n := l.length
    let s₁ := if i < fd then s * (i : ℤ) / fd else s
    if n - 1 - i < fd then s₁ * ((n - 1 - i : ℕ) : ℤ) / fd else s₁)

/-- Model of audio_processor.generate_beep.  `duration_ms` is clamped to a
non-negative integer; a zero duration yields empty audio; if tone synthesis
fails (`toneFails`), silence of the same duration is returned instead of
raising; otherwise the synthesized tone with a fade of `min 5 (d / 2)` ms. -/
def generate_beep (tone : ℕ → ℕ → ℤ) (toneFails : Bool) (duration_ms : ℤ)
    (frequency_hz : ℕ) : List ℤ :=
  let d := (max 0 duration_ms).toNat
  if d = 0 then []
  else if toneFails then List.replicate d 0
  else
    let fade_duration := min 5 (d / 2)
    let beep := (List.range d).map (tone frequency_hz)
    if 0 < fade_duration then applyFade fade_duration beep else beep

/-- One iteration of the censor loop (audio_processor.py lines 127-160): clamp
the segment, skip it when its clamped duration is zero, otherwise overlay a
beep of the clamped duration at the clamped start. -/
def applySeg (tone : ℕ → ℕ → ℤ) (toneFails : Bool) (D : ℕ) (freq : ℕ)
    (acc : List ℤ) (seg : ℚ × ℚ) : List ℤ :=
  let p := clampSegment D seg
  if p.1 < p.2 then overlay acc (generate_beep tone toneFails ((p.2 : ℤ) - (p.1 : ℤ)) freq) p.1
  else acc

/-- Model of audio_processor.censor_audio at the buffer level.  An empty
segment list copies the source unchanged; otherwise the segments are sorted by
start time and each is clamped and overlaid in turn against the fixed original
duration `buf.length`.  (When every segment is skipped the code copies the
original file, which equals the fold leaving the buffer untouched.) -/
def censor_audio (tone : ℕ → ℕ → ℤ) (toneFails : Bool) (buf : List ℤ)
    (segments_to_censor : List (ℚ × ℚ)) (freq : ℕ) : List ℤ :=
  if segments_to_censor.isEmpty then buf
  else (sortByStart segments_to_censor).foldl (applySeg tone toneFails buf.length freq) buf

/-- Boolean check that adjacent intervals of a plan are strictly separated
(no overlap and no touching): every adjacent pair `(a, b)` has `a.2 < b.1`. -/
def pairwiseSeparatedB : List (ℕ × ℕ) → Bool
  | [] => true
  | [_] => true
  | a :: b :: rest => decide (a.2 < b.1) && pairwiseSeparatedB (b :: rest)

/-- Reading a millisecond interval back as an interval in seconds, used to feed
the planner its own output for the idempotence property. -/
def msToSeconds (p : ℕ × ℕ) : ℚ × ℚ :=
  ((p.1 : ℚ) / 1000, (p.2 : ℚ) / 1000)

/-
  Workflow controller model (src/workflow.py, ProcessingWorkflow.run).

  The three filesystem artifacts a run touches have distinct path strings in
  the source: the temporaries are `tmp_<uuid>_audio_extracted.wav` and
  `tmp_<uuid>_audio_censored.wav` in the temp directory, and the output is
  `<base>_censored[_<n>].mp4` in the output directory, so they are modelled as
  distinct constructors.
-/

/-- The distinct filesystem artifacts of one run. -/
inductive FsPath
  | tempOrig
  | tempCensored
  | output
deriving DecidableEq, Repr

/-- Events delivered to the caller-supplied callbacks: status text, normalized
progress, and the single completion notification. -/
inductive Event
  | status (msg : String)
  | progress (v : ℚ)
  | completion (success : Bool) (path : Option FsPath)
deriving DecidableEq, Repr

/-- Whether an event is the completion notification. -/
def Event.isCompletionEv : Event → Bool
  | .completion _ _ => true
  | _ => false

/-- Model of `update_progress` (workflow.py lines 170-176): the percent value
is normalized to `max 0 (min 1 (value / 100))`.  The source only ever passes
integer percents, so the argument is a natural number; `Rat.divInt v 100`
equals `(v : ℚ) / 100`. -/
def progNorm (v : ℕ) : ℚ :=
  max 0 (min 1 (Rat.divInt (v : ℤ) 100))

/-- Model of one word-timestamp dictionary. `finish` models the `end` key
(`end` is a Lean keyword).  The dictionary lookups `item.get('start')` and
`item.get('end')` can be absent, hence the Options. -/
structure WordTS where
  word : String
  start : Option ℚ
  finish : Option ℚ
deriving DecidableEq, Repr

/-- The five pipeline stages, used as injection points for an unexpected
exception escaping a stage into the controller's catch-all handler. -/
inductive Stage
  | extracting
  | transcribing
  | classifying
  | censoring
  | reassembling
deriving DecidableEq, Repr

/-- Possible behaviors of reassemble_video (src/video_processor.py): input
validation failure; success; the write apparently completing but the output
file missing (returns False, deletes nothing); an exception raised before the
output file exists (returns False, deletes nothing); an exception raised after
the output file exists (the except block at lines 106-115 removes the output
file and returns False). -/
inductive ReassembleOutcome
  | invalidInput
  | success
  | writeNoFile
  | exceptionBefore
  | exceptionAfter
deriving DecidableEq, Repr

/-- Return value of reassemble_video. -/
def reassembleOk : ReassembleOutcome → Bool
  | .success => true
  | _ => false

/-- Whether reassemble_video created the output file on disk at some point. -/
def reassembleCreates : ReassembleOutcome → Bool
  | .success => true
  | .exceptionAfter => true
  | _ => false

/-- Whether reassemble_video's except block removed the output file
(video_processor.py lines 109-112). -/
def reassembleDeletes : ReassembleOutcome → Bool
  | .exceptionAfter => true
  | _ => false

/-- Environment of one workflow run: the behavior of every external
collaborator and of the cancellation flag.  `stopTime` is the index of the
first stop-flag read that observes the flag set (`none` if it is never set in
time); since `threading.Event` is monotone, every later read also observes it. -/
structure Env where
  videoValid : Bool
  outputDirValid : Bool
  raiseAt : Option Stage
  extractOk : Bool
  transcribeResult : Option (List WordTS)
  classify : String → Bool
  tempPathOk : Bool
  censorOk : Bool
  reassemble : ReassembleOutcome
  stopTime : Option ℕ

/-- The value the `t`-th read of `self._stop_requested.is_set()` observes. -/
def stopAt (env : Env) (t : ℕ) : Bool :=
  match env.stopTime with
  | none => false
  | some s => decide (s ≤ t)

/-- Result of the classification loop (workflow.py lines 75-89): whether the
silent in-loop stop return was taken, the flagged segments, the emitted
events, and the stop-read counter. -/
structure LoopOut where
  stopped : Bool
  segs : List (ℚ × ℚ)
  evs : List Event
  t : ℕ

/-- Model of the classification loop: per word, read the stop flag (silent
return when set), classify words that are non-empty and carry both timestamps,
and report progress every 50 words and at the last word. -/
def classifyLoop (env : Env) : List WordTS → ℕ → ℕ → List (ℚ × ℚ) → List Event → ℕ → LoopOut
  | [], _, _, segs, evs, t => ⟨false, segs, evs, t⟩
  | item :: rest, i, num, segs, evs, t =>
    if stopAt env t then ⟨true, segs, evs, t + 1⟩
    else
      let segs' :=
        match item.start, item.finish with
        | some s, some e =>
          if item.word ≠ "" ∧ env.classify item.word then segs ++ [(s, e)] else segs
        | _, _ => segs
      let evs' :=
        if i % 50 = 0 ∨ i = num - 1 then
          evs ++ [Event.progress (progNorm (50 + 20 * (i + 1) / num))]
        else evs
      classifyLoop env rest (i + 1) num segs' evs' (t + 1)

/-- Observable outcome of the try block of ProcessingWorkflow.run: emitted
events, the stop-read counter, the local variables `success` and
`final_output_path`, which intermediate artifacts exist on disk, the segments
the censoring stage was invoked with (`none` when it was never invoked), and
the fate of the output file inside reassembly. -/
structure TryOut where
  events : List Event
  t : ℕ
  success : Bool
  outPath : Option FsPath
  tempOrigCreated : Bool
  tempCensoredCreated : Bool
  censorSegments : Option (List (ℚ × ℚ))
  outputCreated : Bool
  reassemblyDeletedOutput : Bool

/-- Early-exit outcome with `success = False` and no artifacts beyond those
explicitly overridden. -/
def TryOut.base (events : List Event) (t : ℕ) : TryOut :=
  ⟨events, t, false, none, false, false, none, false, false⟩

/-- The status text of the controller's catch-all exception handler
(workflow.py line 145). -/
def excStatus : Event :=
  Event.status "Error: An unexpected error occurred. Check logs."

/-- Events emitted at the head of the extraction stage. -/
def evExtract : List Event :=
  [Event.status "Step 1/5: Extracting audio...", Event.progress (progNorm 5)]

/-- Events emitted up to the head of the transcription stage. -/
def evTranscribe : List Event :=
  evExtract ++ [Event.status "Step 2/5: Transcribing audio (this may take time)...",
    Event.progress (progNorm 20)]

/-- Events emitted up to the head of the classification stage. -/
def evClassify (num : ℕ) : List Event :=
  evTranscribe ++ [Event.status ("Step 3/5: Classifying " ++ toString num ++ " words..."),
    Event.progress (progNorm 50)]

/-- Events emitted after the classification loop (workflow.py lines 91-92). -/
def evIdentified (evs : List Event) (n : ℕ) : List Event :=
  evs ++ [Event.status ("Identified " ++ toString n ++ " segments to censor."),
    Event.progress (progNorm 70)]

/-- Events emitted up to the head of the censoring stage. -/
def evCensorStep (evs : List Event) (n : ℕ) : List Event :=
  evIdentified evs n ++ [Event.status "Step 4/5: Generating censored audio..."]

/-- Events emitted up to the head of the reassembly stage. -/
def evReassembleStep (evs : List Event) (n : ℕ) : List Event :=
  evCensorStep evs n ++ [Event.progress (progNorm 85),
    Event.status "Step 5/5: Reassembling video (this may also take time)..."]

/-- Model of the try block of ProcessingWorkflow.run (workflow.py lines
38-146), following the source line by line.  Stop-flag reads are numbered in
program order.  The success status text abstracts the elapsed-time figure of
the source's f-string. -/
def go (env : Env) : TryOut :=
  if env.videoValid = false then
    TryOut.base [Event.status "Error: Input video file not found or invalid."] 0
  else if env.outputDirValid = false then
    TryOut.base [Event.status "Error: Output directory is invalid."] 0
  else if env.raiseAt = some Stage.extracting then
    TryOut.base (evExtract ++ [excStatus]) 0
  else if stopAt env 0 then
    { TryOut.base (evExtract ++ [Event.status "Processing stopped by user."]) 1 with
        tempOrigCreated := env.extractOk }
  else if env.extractOk = false then
    TryOut.base (evExtract ++ [Event.status "Error: Failed to extract audio."]) 1
  else if env.raiseAt = some Stage.transcribing then
    { TryOut.base (evTranscribe ++ [excStatus]) 1 with tempOrigCreated := true }
  else if stopAt env 1 then
    { TryOut.base (evTranscribe ++ [Event.status "Processing stopped by user."]) 2 with
        tempOrigCreated := true }
  else
    match env.transcribeResult with
    | none =>
      { TryOut.base (evTranscribe ++ [Event.status "Error: Failed to transcribe audio."]) 2 with
          tempOrigCreated := true }
    | some wts =>
      if env.raiseAt = some Stage.classifying then
        { TryOut.base (evClassify wts.length ++ [excStatus]) 2 with tempOrigCreated := true }
      else
        match classifyLoop env wts 0 wts.length [] (evClassify wts.length) 2 with
        | ⟨true, _, evs, t⟩ =>
          { TryOut.base evs t with tempOrigCreated := true }
        | ⟨false, segs, evs, t⟩ =>
          if stopAt env t then
            { TryOut.base (evIdentified evs segs.length) (t + 1) with tempOrigCreated := true }
          else if stopAt env (t + 1) then
            { TryOut.base
                (evCensorStep evs segs.length ++ [Event.status "Processing stopped by user."])
                (t + 2) with tempOrigCreated := true }
          else if env.tempPathOk = false then
            { TryOut.base
                (evCensorStep evs segs.length ++
                  [Event.status "Error: Could not create path for censored audio."])
                (t + 2) with tempOrigCreated := true }
          else if env.raiseAt = some Stage.censoring then
            { TryOut.base (evCensorStep evs segs.length ++ [excStatus]) (t + 2) with
                tempOrigCreated := true }
          else if stopAt env (t + 2) then
            { TryOut.base
                (evCensorStep evs segs.length ++ [Event.status "Processing stopped by user."])
                (t + 3) with
                tempOrigCreated := true, tempCensoredCreated := env.censorOk,
                censorSegments := some segs }
          else if env.censorOk = false then
            { TryOut.base
                (evCensorStep evs segs.length ++ [Event.status "Error: Failed to censor audio."])
                (t + 3) with
                tempOrigCreated := true, censorSegments := some segs }
          else if env.raiseAt = some Stage.reassembling then
            { TryOut.base (evReassembleStep evs segs.length ++ [excStatus]) (t + 3) with
                tempOrigCreated := true, tempCensoredCreated := true,
                censorSegments := some segs, outPath := some FsPath.output }
          else if reassembleOk env.reassemble = false then
            { TryOut.base
                (evReassembleStep evs segs.length ++
                  [Event.status "Error: Failed to reassemble video."]) (t + 3) with
                tempOrigCreated := true, tempCensoredCreated := true,
                censorSegments := some segs, outPath := some FsPath.output,
                outputCreated := reassembleCreates env.reassemble,
                reassemblyDeletedOutput := reassembleDeletes env.reassemble }
          else if stopAt env (t + 3) then
            { TryOut.base
                (evReassembleStep evs segs.length ++
                  [Event.status "Stop requested during video reassembly."]) (t + 4) with
                tempOrigCreated := true, tempCensoredCreated := true,
                censorSegments := some segs, outPath := some FsPath.output,
                outputCreated := true }
          else
            { events := evReassembleStep evs segs.length ++
                [Event.status "Processing complete!", Event.progress (progNorm 100)],
              t := t + 4, success := true, outPath := some FsPath.output,
              tempOrigCreated := true, tempCensoredCreated := true,
              censorSegments := some segs, outputCreated := true,
              reassemblyDeletedOutput := false }

/-- Observable result of a whole run. -/
structure RunResult where
  events : List Event
  completionSuccess : Bool
  completionPath : Option FsPath
  cleanupDeleted : List FsPath
  tempOrigCreated : Bool
  tempCensoredCreated : Bool
  reassemblyDeletedOutput : Bool
  outputCreated : Bool
  outputOnDisk : Bool
  censorSegments : Option (List (ℚ × ℚ))
  finalStopObserved : Bool

/-- Model of ProcessingWorkflow.run including the finally block (workflow.py
lines 147-161): cleanup_temp_files deletes the intermediate artifacts that
exist; if the stop flag is observed set, a "Processing stopped." status is
emitted and `success`/`final_output_path` are overridden; finally the
completion callback is invoked exactly once with the resulting pair. -/
def run (env : Env) : RunResult :=
  let g := go env
  let stopped := stopAt env g.t
  let success := if stopped then false else g.success
  let outPath := if stopped then none else g.outPath
  { events := (g.events ++ (if stopped then [Event.status "Processing stopped."] else [])) ++
      [Event.completion success outPath],
    completionSuccess := success,
    completionPath := outPath,
    cleanupDeleted := (if g.tempOrigCreated then [FsPath.tempOrig] else []) ++
      (if g.tempCensoredCreated then [FsPath.tempCensored] else []),
    tempOrigCreated := g.tempOrigCreated,
    tempCensoredCreated := g.tempCensoredCreated,
    reassemblyDeletedOutput := g.reassemblyDeletedOutput,
    outputCreated := g.outputCreated,
    outputOnDisk := g.outputCreated && !g.reassemblyDeletedOutput,
    censorSegments := g.censorSegments,
    finalStopObserved := stopped }

/-- A fully successful run environment: valid paths, two transcribed words of
which one is flagged, all collaborators succeed, no stop request.  Used as the
base point for concrete witnesses. -/
def envHappy : Env :=
  { videoValid := true, outputDirValid := true, raiseAt := none, extractOk := true,
    transcribeResult := some [⟨"hello", some 1, some 2⟩, ⟨"bad", some 3, some 4⟩],
    classify := fun w => w == "bad", tempPathOk := true, censorOk := true,
    reassemble := ReassembleOutcome.success, stopTime := none }

/-
  Shared lemmas about the planner and the censor engine.
-/

theorem seconds_to_milliseconds_eq_floor (q : ℚ) :
    seconds_to_milliseconds q = (⌊q * 1000⌋).toNat := by
  unfold seconds_to_milliseconds
  congr 1
  rw [Int.fdiv_eq_ediv _ (by positivity)]
  rw [show ((q.num * 1000) / (q.den : ℤ)) = ⌊((q.num * 1000 : ℤ) : ℚ) / ((q.den : ℕ) : ℚ)⌋ from
    (Rat.floor_intCast_div_natCast _ _).symm]
  have hnum : (q.num : ℚ) = q * (q.den : ℚ) := by
    nth_rewrite 2 [← Rat.num_div_den q]
    field_simp
  congr 1
  rw [div_eq_iff (by positivity : ((q.den : ℕ) : ℚ) ≠ 0)]
  push_cast
  rw [hnum]
  ring

theorem seconds_to_milliseconds_mono {a b : ℚ} (h : a ≤ b) :
    seconds_to_milliseconds a ≤ seconds_to_milliseconds b := by
  rw [seconds_to_milliseconds_eq_floor, seconds_to_milliseconds_eq_floor]
  exact Int.toNat_le_toNat (Int.floor_le_floor (by nlinarith))

theorem clampSegment_eq (D : ℕ) (s : ℚ × ℚ) :
    clampSegment D s = (min D (seconds_to_milliseconds s.1),
      min D (max (seconds_to_milliseconds s.1) (seconds_to_milliseconds s.2))) := rfl

theorem mem_insertByStart {a x : ℚ × ℚ} {l : List (ℚ × ℚ)} :
    a ∈ insertByStart x l ↔ a = x ∨ a ∈ l := by
  induction l with
  | nil => simp [insertByStart]
  | cons y ys ih =>
    by_cases h : x.1 < y.1
    · simp [insertByStart, h]
    · simp [insertByStart, h, ih]
      tauto

theorem pairwise_insertByStart {x : ℚ × ℚ} {l : List (ℚ × ℚ)}
    (h : l.Pairwise (fun a b => a.1 ≤ b.1)) :
    (insertByStart x l).Pairwise (fun a b => a.1 ≤ b.1) := by
  induction l with
  | nil => simp [insertByStart]
  | cons y ys ih =>
    rcases List.pairwise_cons.mp h with ⟨hy, hys⟩
    by_cases hlt : x.1 < y.1
    · rw [insertByStart, if_pos hlt]
      refine List.pairwise_cons.mpr ⟨?_, h⟩
      intro z hz
      rcases List.mem_cons.mp hz with rfl | hz
      · exact le_of_lt hlt
      · exact le_trans (le_of_lt hlt) (hy z hz)
    · rw [insertByStart, if_neg hlt]
      refine List.pairwise_cons.mpr ⟨?_, ih hys⟩
      intro z hz
      rcases mem_insertByStart.mp hz with rfl | hz
      · exact le_of_not_lt hlt
      · exact hy z hz

theorem pairwise_foldl_insertByStart (l : List (ℚ × ℚ)) (acc : List (ℚ × ℚ))
    (h : acc.Pairwise (fun a b => a.1 ≤ b.1)) :
    (l.foldl (fun acc x => insertByStart x acc) acc).Pairwise (fun a b => a.1 ≤ b.1) := by
  induction l generalizing acc with
  | nil => exact h
  | cons x xs ih => exact ih _ (pairwise_insertByStart h)

theorem sortByStart_pairwise (l : List (ℚ × ℚ)) :
    (sortByStart l).Pairwise (fun a b => a.1 ≤ b.1) :=
  pairwise_foldl_insertByStart l [] List.Pairwise.nil

theorem censorPlan_pairwise (X : List (ℚ × ℚ)) (D : ℕ) :
    (censorPlan X D).Pairwise (fun a b : ℕ × ℕ => a.1 ≤ b.1) := by
  unfold censorPlan
  apply List.Pairwise.filter
  apply List.Pairwise.map
  · intro a b hab
    rw [clampSegment_eq, clampSegment_eq]
    exact min_le_min le_rfl (seconds_to_milliseconds_mono hab)
  · exact sortByStart_pairwise X

theorem censorPlan_mem {X : List (ℚ × ℚ)} {D : ℕ} {p : ℕ × ℕ}
    (hp : p ∈ censorPlan X D) : p.1 < p.2 ∧ p.2 ≤ D := by
  unfold censorPlan at hp
  rcases List.mem_filter.mp hp with ⟨hmem, hlt⟩
  rcases List.mem_map.mp hmem with ⟨s, _, rfl⟩
  refine ⟨by simpa using hlt, ?_⟩
  rw [clampSegment_eq]
  exact min_le_left _ _

theorem insertByStart_of_forall_le {x : ℚ × ℚ} {l : List (ℚ × ℚ)}
    (h : ∀ y ∈ l, y.1 ≤ x.1) : insertByStart x l = l ++ [x] := by
  induction l with
  | nil => rfl
  | cons y ys ih =>
    rw [insertByStart, if_neg (not_lt.mpr (h y (by simp)))]
    simp only [List.cons_append, List.cons.injEq, true_and]
    exact ih (fun z hz => h z (by simp [hz]))

theorem sortByStart_append_singleton (l : List (ℚ × ℚ)) (x : ℚ × ℚ) :
    sortByStart (l ++ [x]) = insertByStart x (sortByStart l) := by
  unfold sortByStart
  rw [List.foldl_append]
  rfl

theorem sortByStart_eq_self {l : List (ℚ × ℚ)}
    (h : l.Pairwise (fun a b => a.1 ≤ b.1)) : sortByStart l = l := by
  induction l using List.reverseRecOn with
  | nil => rfl
  | append_singleton l x ih =>
    rw [sortByStart_append_singleton]
    rcases List.pairwise_append.mp h with ⟨h1, _, h3⟩
    rw [ih h1, insertByStart_of_forall_le (fun y hy => h3 y hy x (by simp))]

theorem seconds_to_milliseconds_div_1000 (n : ℕ) :
    seconds_to_milliseconds ((n : ℚ) / 1000) = n := by
  rw [seconds_to_milliseconds_eq_floor, div_mul_cancel₀ _ (by norm_num : (1000 : ℚ) ≠ 0)]
  rw [Int.floor_natCast]
  exact Int.toNat_natCast n

theorem clampSegment_msToSeconds {D : ℕ} {p : ℕ × ℕ} (h1 : p.1 ≤ p.2) (h2 : p.2 ≤ D) :
    clampSegment D (msToSeconds p) = p := by
  rw [clampSegment_eq]
  unfold msToSeconds
  simp only [seconds_to_milliseconds_div_1000]
  rw [max_eq_right h1, min_eq_right h2, min_eq_right (le_trans h1 h2)]

theorem overlay_length (base seg : List ℤ) (pos : ℕ) :
    (overlay base seg pos).length = base.length := by
  unfold overlay
  simp only [List.length_append, List.length_take, List.length_zipWith, List.length_drop]
  omega

theorem overlay_getElem_lt (base seg : List ℤ) (pos i : ℕ) (h : i < pos) :
    (overlay base seg pos)[i]? = base[i]? := by
  by_cases hL : i < base.length
  · unfold overlay
    rw [List.getElem?_append_left (by simp [List.length_take, List.length_zipWith]; omega),
      List.getElem?_append_left (by simp [List.length_take]; omega)]
    exact List.getElem?_take_of_lt h
  · rw [List.getElem?_eq_none (by rw [overlay_length]; omega),
      List.getElem?_eq_none (by omega)]

theorem overlay_getElem_ge (base seg : List ℤ) (pos i : ℕ) (h : pos + seg.length ≤ i) :
    (overlay base seg pos)[i]? = base[i]? := by
  by_cases hL : i < base.length
  · unfold overlay
    have hmin : min (base.length - pos) seg.length = seg.length := by omega
    rw [List.getElem?_append_right
      (by simp only [List.length_append, List.length_take, List.length_zipWith]; omega)]
    simp only [List.length_append, List.length_take, List.length_zipWith, List.length_drop,
      hmin, List.getElem?_drop]
    congr 1
    omega
  · rw [List.getElem?_eq_none (by rw [overlay_length]; omega),
      List.getElem?_eq_none (by omega)]

theorem applyFade_length (fd : ℕ) (l : List ℤ) : (applyFade fd l).length = l.length := by
  unfold applyFade
  simp

theorem generate_beep_length (tone : ℕ → ℕ → ℤ) (toneFails : Bool) (d : ℕ)
    (freq : ℕ) : (generate_beep tone toneFails (d : ℤ) freq).length = d := by
  unfold generate_beep
  by_cases hd : d = 0
  · simp [hd]
  · have h0 : ((max 0 (d : ℤ)).toNat) = d := by omega
    simp only [h0, if_neg hd]
    by_cases ht : toneFails
    · simp [ht]
    · simp only [ht, if_false]
      by_cases hf : 0 < min 5 (d / 2)
      · simp [hf, applyFade_length]
      · simp [hf]

theorem foldl_applySeg_length (tone : ℕ → ℕ → ℤ) (toneFails : Bool) (D freq : ℕ)
    (legs : List (ℚ × ℚ)) (acc : List ℤ) :
    (legs.foldl (applySeg tone toneFails D freq) acc).length = acc.length := by
  induction legs generalizing acc with
  | nil => rfl
  | cons s rest ih =>
    rw [List.foldl_cons, ih]
    simp only [applySeg]
    split
    · exact overlay_length _ _ _
    · rfl

theorem censor_audio_length (tone : ℕ → ℕ → ℤ) (toneFails : Bool) (buf : List ℤ)
    (segs : List (ℚ × ℚ)) (freq : ℕ) :
    (censor_audio tone toneFails buf segs freq).length = buf.length := by
  unfold censor_audio
  split
  · rfl
  · exact foldl_applySeg_length _ _ _ _ _ _

theorem foldl_applySeg_getElem (tone : ℕ → ℕ → ℤ) (toneFails : Bool) (D freq : ℕ)
    (legs : List (ℚ × ℚ)) (acc : List ℤ) (i : ℕ)
    (h : ∀ s ∈ legs, (clampSegment D s).1 < (clampSegment D s).2 →
      i < (clampSegment D s).1 ∨ (clampSegment D s).2 ≤ i) :
    (legs.foldl (applySeg tone toneFails D freq) acc)[i]? = acc[i]? := by
  induction legs generalizing acc with
  | nil => rfl
  | cons s rest ih =>
    rw [List.foldl_cons, ih _ (fun z hz => h z (List.mem_cons_of_mem _ hz))]
    simp only [applySeg]
    split
    · rename_i hp
      rcases h s (List.mem_cons_self _ _) hp with hlt | hge
      · exact overlay_getElem_lt _ _ _ _ hlt
      · apply overlay_getElem_ge
        have hc : ((clampSegment D s).2 : ℤ) - ((clampSegment D s).1 : ℤ) =
            (((clampSegment D s).2 - (clampSegment D s).1 : ℕ) : ℤ) := by omega
        rw [hc, generate_beep_length]
        omega
    · rfl

/-
  Shared lemmas about the workflow controller: the classification loop and the
  try block emit only status and progress events, and reassembly is the only
  place the output file can be deleted.
-/

theorem classifyLoop_no_completion (env : Env) (items : List WordTS) (i num : ℕ)
    (segs : List (ℚ × ℚ)) (evs : List Event) (t : ℕ)
    (h : ∀ e ∈ evs, e.isCompletionEv = false) :
    ∀ e ∈ (classifyLoop env items i num segs evs t).evs, e.isCompletionEv = false := by
  induction items generalizing i segs evs t with
  | nil => exact h
  | cons item rest ih =>
    rw [classifyLoop]
    split
    · exact h
    · apply ih
      intro e he
      split at he
      · rcases List.mem_append.mp he with he | he
        · exact h e he
        · simp only [List.mem_singleton] at he
          subst he
          rfl
      · exact h e he

theorem noCompl_append {l₁ l₂ : List Event} (h₁ : ∀ e ∈ l₁, e.isCompletionEv = false)
    (h₂ : ∀ e ∈ l₂, e.isCompletionEv = false) : ∀ e ∈ l₁ ++ l₂, e.isCompletionEv = false := by
  intro e he
  rcases List.mem_append.mp he with h | h
  · exact h₁ e h
  · exact h₂ e h

theorem noCompl_nil : ∀ e ∈ ([] : List Event), e.isCompletionEv = false := by
  intro e he
  cases he

theorem noCompl_cons_status (s : String) {l : List Event}
    (h : ∀ e ∈ l, e.isCompletionEv = false) :
    ∀ e ∈ Event.status s :: l, e.isCompletionEv = false := by
  intro e he
  rcases List.mem_cons.mp he with rfl | he
  · rfl
  · exact h e he

theorem noCompl_cons_progress (v : ℚ) {l : List Event}
    (h : ∀ e ∈ l, e.isCompletionEv = false) :
    ∀ e ∈ Event.progress v :: l, e.isCompletionEv = false := by
  intro e he
  rcases List.mem_cons.mp he with rfl | he
  · rfl
  · exact h e he

theorem evClassify_no_completion (n : ℕ) :
    ∀ e ∈ evClassify n, e.isCompletionEv = false :=
  noCompl_append (by decide)
    (noCompl_cons_status _ (noCompl_cons_progress _ noCompl_nil))

theorem evIdentified_no_completion {evs : List Event} {n : ℕ}
    (h : ∀ e ∈ evs, e.isCompletionEv = false) :
    ∀ e ∈ evIdentified evs n, e.isCompletionEv = false :=
  noCompl_append h (noCompl_cons_status _ (noCompl_cons_progress _ noCompl_nil))

theorem evCensorStep_no_completion {evs : List Event} {n : ℕ}
    (h : ∀ e ∈ evs, e.isCompletionEv = false) :
    ∀ e ∈ evCensorStep evs n, e.isCompletionEv = false :=
  noCompl_append (evIdentified_no_completion h) (noCompl_cons_status _ noCompl_nil)

theorem evReassembleStep_no_completion {evs : List Event} {n : ℕ}
    (h : ∀ e ∈ evs, e.isCompletionEv = false) :
    ∀ e ∈ evReassembleStep evs n, e.isCompletionEv = false :=
  noCompl_append (evCensorStep_no_completion h)
    (noCompl_cons_progress _ (noCompl_cons_status _ noCompl_nil))

theorem go_inv (env : Env) :
    (∀ e ∈ (go env).events, e.isCompletionEv = false) ∧
    ((go env).reassemblyDeletedOutput = true → env.reassemble = ReassembleOutcome.exceptionAfter) := by
  by_cases h1 : env.videoValid = false
  · simp only [go, h1, if_true, TryOut.base]
    exact ⟨by decide, fun h => Bool.noConfusion (show false = true from h)⟩
  by_cases h2 : env.outputDirValid = false
  · simp only [go, h1, h2, if_false, if_true, TryOut.base]
    exact ⟨by decide, fun h => Bool.noConfusion (show false = true from h)⟩
  by_cases h3 : env.raiseAt = some Stage.extracting
  · simp only [go, h1, h2, h3, if_false, if_true, TryOut.base]
    exact ⟨by decide, fun h => Bool.noConfusion (show false = true from h)⟩
  by_cases h4 : stopAt env 0 = true
  · simp only [go, h1, h2, h3, h4, if_false, if_true, TryOut.base]
    exact ⟨noCompl_append (by decide) (noCompl_cons_status _ noCompl_nil),
      fun h => Bool.noConfusion (show false = true from h)⟩
  by_cases h5 : env.extractOk = false
  · simp only [go, h1, h2, h3, h4, h5, if_false, if_true, TryOut.base]
    exact ⟨by decide, fun h => Bool.noConfusion (show false = true from h)⟩
  by_cases h6 : env.raiseAt = some Stage.transcribing
  · simp only [go, h1, h2, h3, h4, h5, h6, if_false, if_true, TryOut.base]
    exact ⟨by decide, fun h => Bool.noConfusion (show false = true from h)⟩
  by_cases h7 : stopAt env 1 = true
  · simp only [go, h1, h2, h3, h4, h5, h6, h7, if_false, if_true, TryOut.base]
    exact ⟨by decide, fun h => Bool.noConfusion (show false = true from h)⟩
  rcases h8 : env.transcribeResult with _ | wts
  · simp only [go, h1, h2, h3, h4, h5, h6, h7, h8, if_false, if_true, TryOut.base]
    exact ⟨by decide, fun h => Bool.noConfusion (show false = true from h)⟩
  by_cases h9 : env.raiseAt = some Stage.classifying
  · simp only [go, h1, h2, h3, h4, h5, h6, h7, h8, h9, if_false, if_true, TryOut.base]
    refine ⟨noCompl_append (evClassify_no_completion wts.length) ?_,
      fun h => Bool.noConfusion (show false = true from h)⟩
    exact noCompl_cons_status _ noCompl_nil
  have hevsAll := classifyLoop_no_completion env wts 0 wts.length [] (evClassify wts.length) 2
    (evClassify_no_completion wts.length)
  rcases hlo : classifyLoop env wts 0 wts.length [] (evClassify wts.length) 2 with
    ⟨stopped, segs, evs, t⟩
  rw [hlo] at hevsAll
  dsimp only at hevsAll
  cases stopped with
  | true =>
    simp only [go, h1, h2, h3, h4, h5, h6, h7, h8, h9, hlo, if_false, if_true, TryOut.base]
    exact ⟨hevsAll, fun h => Bool.noConfusion (show false = true from h)⟩
  | false =>
    by_cases h10 : stopAt env t = true
    · simp only [go, h1, h2, h3, h4, h5, h6, h7, h8, h9, hlo, h10, if_false, if_true, TryOut.base]
      exact ⟨evIdentified_no_completion hevsAll,
        fun h => Bool.noConfusion (show false = true from h)⟩
    by_cases h11 : stopAt env (t + 1) = true
    · simp only [go, h1, h2, h3, h4, h5, h6, h7, h8, h9, hlo, h10, h11, if_false, if_true,
        TryOut.base]
      exact ⟨noCompl_append (evCensorStep_no_completion hevsAll)
        (noCompl_cons_status _ noCompl_nil), fun h => Bool.noConfusion (show false = true from h)⟩
    by_cases h12 : env.tempPathOk = false
    · simp only [go, h1, h2, h3, h4, h5, h6, h7, h8, h9, hlo, h10, h11, h12, if_false, if_true,
        TryOut.base]
      exact ⟨noCompl_append (evCensorStep_no_completion hevsAll)
        (noCompl_cons_status _ noCompl_nil), fun h => Bool.noConfusion (show false = true from h)⟩
    by_cases h13 : env.raiseAt = some Stage.censoring
    · simp only [go, h1, h2, h3, h4, h5, h6, h7, h8, h9, hlo, h10, h11, h12, h13,
        if_false, if_true, TryOut.base]
      exact ⟨noCompl_append (evCensorStep_no_completion hevsAll)
        (noCompl_cons_status _ noCompl_nil), fun h => Bool.noConfusion (show false = true from h)⟩
    by_cases h14 : stopAt env (t + 2) = true
    · simp only [go, h1, h2, h3, h4, h5, h6, h7, h8, h9, hlo, h10, h11, h12, h13, h14,
        if_false, if_true, TryOut.base]
      exact ⟨noCompl_append (evCensorStep_no_completion hevsAll)
        (noCompl_cons_status _ noCompl_nil), fun h => Bool.noConfusion (show false = true from h)⟩
    by_cases h15 : env.censorOk = false
    · simp only [go, h1, h2, h3, h4, h5, h6, h7, h8, h9, hlo, h10, h11, h12, h13, h14, h15,
        if_false, if_true, TryOut.base]
      exact ⟨noCompl_append (evCensorStep_no_completion hevsAll)
        (noCompl_cons_status _ noCompl_nil), fun h => Bool.noConfusion (show false = true from h)⟩
    by_cases h16 : env.raiseAt = some Stage.reassembling
    · simp only [go, h1, h2, h3, h4, h5, h6, h7, h8, h9, hlo, h10, h11, h12, h13, h14, h15, h16,
        if_false, if_true, TryOut.base]
      exact ⟨noCompl_append (evReassembleStep_no_completion hevsAll)
        (noCompl_cons_status _ noCompl_nil), fun h => Bool.noConfusion (show false = true from h)⟩
    by_cases h17 : reassembleOk env.reassemble = false
    · simp only [go, h1, h2, h3, h4, h5, h6, h7, h8, h9, hlo, h10, h11, h12, h13, h14, h15, h16,
        h17, if_false, if_true, TryOut.base]
      refine ⟨noCompl_append (evReassembleStep_no_completion hevsAll)
        (noCompl_cons_status _ noCompl_nil), ?_⟩
      cases env.reassemble <;> first | exact fun _ => rfl | exact fun h => Bool.noConfusion h
    by_cases h18 : stopAt env (t + 3) = true
    · simp only [go, h1, h2, h3, h4, h5, h6, h7, h8, h9, hlo, h10, h11, h12, h13, h14, h15, h16,
        h17, h18, if_false, if_true, TryOut.base]
      exact ⟨noCompl_append (evReassembleStep_no_completion hevsAll)
        (noCompl_cons_status _ noCompl_nil), fun h => Bool.noConfusion (show false = true from h)⟩
    · simp only [go, h1, h2, h3, h4, h5, h6, h7, h8, h9, hlo, h10, h11, h12, h13, h14, h15, h16,
        h17, h18, if_false, if_true, TryOut.base]
      exact ⟨noCompl_append (evReassembleStep_no_completion hevsAll)
        (noCompl_cons_status _ (noCompl_cons_progress _ noCompl_nil)),
        fun h => Bool.noConfusion (show false = true from h)⟩

/-
  Claim theorems.
-/

/-- C1 counterexample: the censoring plan the code builds does NOT merge
overlapping intervals.  For the claimed scenario — flagged intervals
[(2.0, 2.5), (2.4, 3.0), (10, 9)] with duration 20 s (= 20000 ms) — the plan is
[(2000, 2500), (2400, 3000)] ms, not the merged [(2000, 3000)], and its two
adjacent intervals overlap (2400 < 2500), refuting both the merged scenario
value and the universal non-overlap property. -/
theorem planner_merge_counterexample :
    censorPlan [((2 : ℚ), mkRat 5 2), (mkRat 12 5, 3), ((10 : ℚ), 9)] 20000 =
      [(2000, 2500), (2400, 3000)] ∧
    censorPlan [((2 : ℚ), mkRat 5 2), (mkRat 12 5, 3), ((10 : ℚ), 9)] 20000 ≠
      [(2000, 3000)] ∧
    pairwiseSeparatedB
      (censorPlan [((2 : ℚ), mkRat 5 2), (mkRat 12 5, 3), ((10 : ℚ), 9)] 20000) = false := by
  refine ⟨by decide, by decide, by decide⟩

/-- C1 amended: censor_audio sorts the flagged intervals by start time, clamps
them to the audio duration and drops zero-duration (including reversed)
intervals, but never merges overlapping or touching intervals — each is
overlaid separately.  The plan is sorted by start; for the scenario of the
claim the plan is [(2000, 2500), (2400, 3000)] with the reversed interval
(10, 9) dropped. -/
theorem planner_plan_sorted_unmerged :
    (∀ (X : List (ℚ × ℚ)) (D : ℕ),
      (censorPlan X D).Pairwise (fun a b : ℕ × ℕ => a.1 ≤ b.1)) ∧
    censorPlan [((2 : ℚ), mkRat 5 2), (mkRat 12 5, 3), ((10 : ℚ), 9)] 20000 =
      [(2000, 2500), (2400, 3000)] :=
  ⟨censorPlan_pairwise, by decide⟩

/-- C6: the segment planner (sort by start, convert to milliseconds, clamp,
drop zero-duration intervals) is idempotent: re-running it on its own output
(read back as seconds via `msToSeconds`) yields the identical plan, for every
interval set and every duration. -/
theorem planner_idempotent (X : List (ℚ × ℚ)) (D : ℕ) :
    censorPlan ((censorPlan X D).map msToSeconds) D = censorPlan X D := by
  have hmap : ((censorPlan X D).map msToSeconds).Pairwise (fun a b => a.1 ≤ b.1) := by
    refine List.Pairwise.map _ ?_ (censorPlan_pairwise X D)
    intro a b hab
    unfold msToSeconds
    have hc : ((a.1 : ℚ)) ≤ (b.1 : ℚ) := by exact_mod_cast hab
    simpa using div_le_div_of_nonneg_right hc (by norm_num)
  conv_lhs => rw [censorPlan, sortByStart_eq_self hmap, List.map_map]
  have hid : ∀ p ∈ censorPlan X D, (clampSegment D ∘ msToSeconds) p = p := by
    intro p hp
    exact clampSegment_msToSeconds (le_of_lt (censorPlan_mem hp).1) (censorPlan_mem hp).2
  rw [List.map_congr_left hid, List.map_id']
  refine List.filter_eq_self.mpr ?_
  intro p hp
  simpa using (censorPlan_mem hp).1

/-- C7: every interval of the plan the censor engine applies is clamped into
range — `0 ≤ start ≤ end ≤ D` for the source duration `D` — and has strictly
positive duration (zero-duration intervals are dropped rather than applied). -/
theorem plan_intervals_clamped (X : List (ℚ × ℚ)) (D : ℕ) (p : ℕ × ℕ)
    (hp : p ∈ censorPlan X D) :
    p.1 ≤ p.2 ∧ p.2 ≤ D ∧ 0 < p.2 - p.1 := by
  rcases censorPlan_mem hp with ⟨h1, h2⟩
  exact ⟨le_of_lt h1, h2, by omega⟩

/-- Witness for C7 at the concrete scenario plan interval (2000, 2500). -/
theorem plan_intervals_clamped_witness :
    (2000, 2500) ∈ censorPlan [((2 : ℚ), mkRat 5 2), (mkRat 12 5, 3), ((10 : ℚ), 9)] 20000 ∧
    (2000 ≤ 2500 ∧ 2500 ≤ 20000 ∧ 0 < 2500 - 2000) :=
  ⟨by decide,
   plan_intervals_clamped [((2 : ℚ), mkRat 5 2), (mkRat 12 5, 3), ((10 : ℚ), 9)] 20000
     (2000, 2500) (by decide)⟩

/-- C4: for every source buffer and every flagged-interval list, the censored
buffer has exactly the source's total duration, and every sample outside the
plan's intervals is unchanged. -/
theorem censor_preserves_duration_and_outside (tone : ℕ → ℕ → ℤ) (toneFails : Bool)
    (buf : List ℤ) (segs : List (ℚ × ℚ)) (freq : ℕ) :
    (censor_audio tone toneFails buf segs freq).length = buf.length ∧
    ∀ i : ℕ, (∀ p ∈ censorPlan segs buf.length, i < p.1 ∨ p.2 ≤ i) →
      (censor_audio tone toneFails buf segs freq)[i]? = buf[i]? := by
  refine ⟨censor_audio_length _ _ _ _ _, ?_⟩
  intro i hi
  unfold censor_audio
  split
  · rfl
  · apply foldl_applySeg_getElem
    intro s hs hp
    refine hi (clampSegment buf.length s) ?_
    unfold censorPlan
    exact List.mem_filter.mpr ⟨List.mem_map_of_mem _ hs, by simpa using hp⟩

/-- Witness for C4 on a 5-sample buffer with one flagged interval covering
milliseconds [1, 3): the duration is preserved and sample 0 is unchanged. -/
theorem censor_preserves_duration_and_outside_witness :
    (censor_audio (fun _ _ => (7 : ℤ)) false [1, 2, 3, 4, 5]
      [(mkRat 1 1000, mkRat 3 1000)] 440).length = 5 ∧
    (censor_audio (fun _ _ => (7 : ℤ)) false [1, 2, 3, 4, 5]
      [(mkRat 1 1000, mkRat 3 1000)] 440)[0]? = ([1, 2, 3, 4, 5] : List ℤ)[0]? :=
  ⟨(censor_preserves_duration_and_outside (fun _ _ => (7 : ℤ)) false [1, 2, 3, 4, 5]
      [(mkRat 1 1000, mkRat 3 1000)] 440).1,
   (censor_preserves_duration_and_outside (fun _ _ => (7 : ℤ)) false [1, 2, 3, 4, 5]
      [(mkRat 1 1000, mkRat 3 1000)] 440).2 0 (by decide)⟩

/-- C5: censoring with an empty segment list is the identity on the audio
content (the source copies the original file) — a defined successful result,
not an error. -/
theorem censor_empty_plan_identity (tone : ℕ → ℕ → ℤ) (toneFails : Bool)
    (buf : List ℤ) (freq : ℕ) :
    censor_audio tone toneFails buf [] freq = buf := rfl

/-- C8: if tone synthesis fails, generate_beep substitutes silence of exactly
the requested duration; when it succeeds the tone also has exactly that
duration; and censoring never fails because of the tone generator — it still
returns a full-length buffer. -/
theorem beep_fallback_silence (tone : ℕ → ℕ → ℤ) (d freq : ℕ) (hd : 0 < d) :
    generate_beep tone true (d : ℤ) freq = List.replicate d 0 ∧
    (generate_beep tone false (d : ℤ) freq).length = d ∧
    ∀ (toneFails : Bool) (buf : List ℤ) (segs : List (ℚ × ℚ)),
      (censor_audio tone toneFails buf segs freq).length = buf.length := by
  refine ⟨?_, generate_beep_length _ _ _ _, fun tf buf segs => censor_audio_length _ _ _ _ _⟩
  unfold generate_beep
  have h0 : ((max 0 (d : ℤ)).toNat) = d := by omega
  simp [h0, Nat.pos_iff_ne_zero.mp hd]

/-- Witness for C8 at duration 3 ms: the fallback is 3 ms of silence and
censoring a 3-sample buffer with a failing tone generator still returns a
3-sample buffer. -/
theorem beep_fallback_silence_witness :
    generate_beep (fun _ _ => (7 : ℤ)) true (3 : ℤ) 5 = List.replicate 3 0 ∧
    (censor_audio (fun _ _ => (7 : ℤ)) true [1, 2, 3] [((0 : ℚ), 1)] 5).length = 3 :=
  ⟨(beep_fallback_silence (fun _ _ => (7 : ℤ)) 3 5 (by decide)).1,
   (beep_fallback_silence (fun _ _ => (7 : ℤ)) 3 5 (by decide)).2.2 true [1, 2, 3] [((0 : ℚ), 1)]⟩

/-- C3: for every run environment — success, collaborator failure, validation
error, cancellation, or an unexpected exception in any stage — the completion
notification carrying (success, outputPath) is the last event of the run and
occurs exactly once: the event trace is a completion-free prefix followed by
the single completion event. -/
theorem run_completion_once_last (env : Env) :
    ∃ evs : List Event,
      (run env).events =
        evs ++ [Event.completion (run env).completionSuccess (run env).completionPath] ∧
      ∀ e ∈ evs, e.isCompletionEv = false := by
  refine ⟨(go env).events ++
    (if stopAt env (go env).t then [Event.status "Processing stopped."] else []), rfl, ?_⟩
  refine noCompl_append (go_inv env).1 ?_
  split
  · exact noCompl_cons_status _ noCompl_nil
  · exact noCompl_nil

/-- Witness for C3 at the fully successful environment. -/
theorem run_completion_once_last_witness :
    ∃ evs : List Event,
      (run envHappy).events =
        evs ++ [Event.completion (run envHappy).completionSuccess (run envHappy).completionPath] ∧
      ∀ e ∈ evs, e.isCompletionEv = false :=
  run_completion_once_last envHappy

/-- C2 counterexample: when an exception occurs inside reassemble_video after
the output file has been written (video_processor.py lines 106-115), the run's
failure path deletes the already-created output video artifact, so the claim
that the output is never deleted on failure paths after its creation is false. -/
theorem run_deletes_created_output_counterexample :
    (run { envHappy with reassemble := ReassembleOutcome.exceptionAfter }).outputCreated = true ∧
    (run { envHappy with
        reassemble := ReassembleOutcome.exceptionAfter }).reassemblyDeletedOutput = true ∧
    (run { envHappy with reassemble := ReassembleOutcome.exceptionAfter }).outputOnDisk = false ∧
    (run { envHappy with
        reassemble := ReassembleOutcome.exceptionAfter }).completionSuccess = false :=
  ⟨by decide, by decide, by decide, by decide⟩

/-- C2 amended: on every terminal outcome the controller's cleanup deletes
exactly the intermediate artifacts that exist (extracted original audio,
intermediate censored audio) and never the final output artifact; the only
deletion of the output during a run is performed by reassemble_video's own
exception handler, after the output file was created but the reassembly then
raised. -/
theorem cleanup_never_deletes_output (env : Env) :
    FsPath.output ∉ (run env).cleanupDeleted ∧
    (∀ p ∈ (run env).cleanupDeleted, p = FsPath.tempOrig ∨ p = FsPath.tempCensored) ∧
    ((run env).tempOrigCreated = true → FsPath.tempOrig ∈ (run env).cleanupDeleted) ∧
    ((run env).tempCensoredCreated = true → FsPath.tempCensored ∈ (run env).cleanupDeleted) ∧
    ((run env).reassemblyDeletedOutput = true →
      env.reassemble = ReassembleOutcome.exceptionAfter) := by
  refine ⟨?_, ?_, ?_, ?_, ?_⟩
  · intro hmem
    simp only [run] at hmem
    rcases List.mem_append.mp hmem with hm | hm <;> split at hm <;> simp_all
  · intro p hp
    simp only [run] at hp
    rcases List.mem_append.mp hp with hm | hm <;> split at hm <;> simp_all
  · intro hc
    simp only [run] at hc ⊢
    rw [hc]
    simp
  · intro hc
    simp only [run] at hc ⊢
    rw [hc]
    simp
  · intro hd
    exact (go_inv env).2 hd

/-- Witness for C2 at the fully successful environment: both intermediates are
deleted and the output is not. -/
theorem cleanup_never_deletes_output_witness :
    FsPath.output ∉ (run envHappy).cleanupDeleted ∧
    FsPath.tempOrig ∈ (run envHappy).cleanupDeleted ∧
    FsPath.tempCensored ∈ (run envHappy).cleanupDeleted :=
  ⟨(cleanup_never_deletes_output envHappy).1,
   (cleanup_never_deletes_output envHappy).2.2.1 (by decide),
   (cleanup_never_deletes_output envHappy).2.2.2.1 (by decide)⟩

/-- C10: whenever the finalization block observes the stop flag set — in
particular after reassembly already succeeded and the output video was written
— the completion callback receives success = false and outputPath = none, while
the cleanup never removes the output file: an already-created output video
remains on disk (unless reassembly itself had deleted it on its exception
path). -/
theorem late_stop_overrides_success (env : Env)
    (h : (run env).finalStopObserved = true) :
    (run env).completionSuccess = false ∧ (run env).completionPath = none ∧
    FsPath.output ∉ (run env).cleanupDeleted ∧
    ((run env).outputCreated = true → (run env).reassemblyDeletedOutput = false →
      (run env).outputOnDisk = true) := by
  have hs : stopAt env (go env).t = true := h
  refine ⟨?_, ?_, ?_, ?_⟩
  · simp [run, hs]
  · simp [run, hs]
  · intro hmem
    simp only [run] at hmem
    rcases List.mem_append.mp hmem with hm | hm <;> split at hm <;> simp_all
  · intro hc hd
    simp only [run] at hc hd ⊢
    rw [hc, hd]
    rfl

/-- Witness for C10: a stop request first observed at the finalization check of
a fully successful run (the 8th stop-flag read) yields completion
(false, none) while the output file remains on disk. -/
theorem late_stop_overrides_success_witness :
    (run { envHappy with stopTime := some 8 }).completionSuccess = false ∧
    (run { envHappy with stopTime := some 8 }).completionPath = none ∧
    (run { envHappy with stopTime := some 8 }).outputOnDisk = true :=
  ⟨(late_stop_overrides_success _ (by decide)).1,
   (late_stop_overrides_success _ (by decide)).2.1,
   (late_stop_overrides_success _ (by decide)).2.2.2 (by decide) (by decide)⟩

/-- C9: a nil transcription result stops the run as Failed at the Transcribing
stage (completion (false, none), the transcription error status is emitted, the
censoring stage is never invoked), while an empty word list is not an error:
classification is skipped, the censoring stage is invoked with zero segments —
which copies the source audio unchanged — and the run reaches Succeeded when
reassembly succeeds. -/
theorem transcription_nil_fails_empty_succeeds (env₁ env₂ : Env)
    (h1v : env₁.videoValid = true) (h1o : env₁.outputDirValid = true)
    (h1r : env₁.raiseAt = none) (h1e : env₁.extractOk = true)
    (h1t : env₁.transcribeResult = none) (h1s : env₁.stopTime = none)
    (h2v : env₂.videoValid = true) (h2o : env₂.outputDirValid = true)
    (h2r : env₂.raiseAt = none) (h2e : env₂.extractOk = true)
    (h2t : env₂.transcribeResult = some []) (h2s : env₂.stopTime = none)
    (h2p : env₂.tempPathOk = true) (h2c : env₂.censorOk = true)
    (h2re : env₂.reassemble = ReassembleOutcome.success) :
    ((run env₁).completionSuccess = false ∧ (run env₁).completionPath = none ∧
     Event.status "Error: Failed to transcribe audio." ∈ (run env₁).events ∧
     (run env₁).censorSegments = none) ∧
    ((run env₂).completionSuccess = true ∧ (run env₂).completionPath = some FsPath.output ∧
     (run env₂).censorSegments = some [] ∧
     ∀ (tone : ℕ → ℕ → ℤ) (toneFails : Bool) (buf : List ℤ) (freq : ℕ),
       censor_audio tone toneFails buf [] freq = buf) := by
  obtain ⟨vv1, ov1, ra1, eo1, tr1, cl1, tp1, co1, re1, st1⟩ := env₁
  obtain ⟨vv2, ov2, ra2, eo2, tr2, cl2, tp2, co2, re2, st2⟩ := env₂
  simp only at h1v h1o h1r h1e h1t h1s h2v h2o h2r h2e h2t h2s h2p h2c h2re
  subst h1v h1o h1r h1e h1t h1s h2v h2o h2r h2e h2t h2s h2p h2c h2re
  refine ⟨⟨rfl, rfl, ?_, rfl⟩, rfl, rfl, rfl, fun tone tf buf freq => rfl⟩
  exact List.mem_append_left _ (List.mem_append_left _
    (List.mem_append_right _ (List.mem_singleton.mpr rfl)))

/-- Witness for C9: nil transcription fails, empty transcription succeeds with
zero censor segments. -/
theorem transcription_nil_fails_empty_succeeds_witness :
    (run { envHappy with transcribeResult := none }).completionSuccess = false ∧
    (run { envHappy with transcribeResult := some [] }).completionSuccess = true ∧
    (run { envHappy with transcribeResult := some [] }).censorSegments = some [] :=
  ⟨(transcription_nil_fails_empty_succeeds { envHappy with transcribeResult := none }
      { envHappy with transcribeResult := some [] }
      rfl rfl rfl rfl rfl rfl rfl rfl rfl rfl rfl rfl rfl rfl rfl).1.1,
   (transcription_nil_fails_empty_succeeds { envHappy with transcribeResult := none }
      { envHappy with transcribeResult := some [] }
      rfl rfl rfl rfl rfl rfl rfl rfl rfl rfl rfl rfl rfl rfl rfl).2.1,
   (transcription_nil_fails_empty_succeeds { envHappy with transcribeResult := none }
      { envHappy with transcribeResult := some [] }
      rfl rfl rfl rfl rfl rfl rfl rfl rfl rfl rfl rfl rfl rfl rfl).2.2.2.1⟩

end Redactor
